import Mathlib

/-!
Shallow embedding of the viban Kanban board core (board engine, task
store, project configuration store, project registry).

Every operation is load-mutate-save against a single file; we model the
file state explicitly (the task collection as a `List Task`, config and
registry files as small inductive file states) and the nondeterministic
environment inputs (generated uuid, current timestamp) as extra
parameters.  TypeScript `Partial` objects become records of `Option`
fields, where `none` means the property is absent and the JS object
spread keeps the existing value.
-/

namespace Viban

/-- The four workflow columns (`src/board/types.ts`, `ColumnType`). -/
inductive ColumnType where
  | backlog
  | todo
  | review
  | done
deriving DecidableEq, Repr

/-- Task priority levels (`src/board/types.ts`, `Priority`). -/
inductive Priority where
  | low
  | medium
  | high
deriving DecidableEq, Repr

/-- The runtime string of a column literal. -/
def ColumnType.name : ColumnType → String
  | .backlog => "backlog"
  | .todo => "todo"
  | .review => "review"
  | .done => "done"

/-- `COLUMNS` constant: all column types in order (`src/board/types.ts`). -/
def COLUMNS : List ColumnType := [.backlog, .todo, .review, .done]

/-- The runtime string values of `COLUMNS`, as compared by
`COLUMNS.includes(toColumn)` against an untrusted string. -/
def columnNames : List String := COLUMNS.map ColumnType.name

/-- Recover the column enum value from its runtime string; `none` exactly
when the string is not one of the four members of `COLUMNS`. -/
def parseColumn (s : String) : Option ColumnType :=
  COLUMNS.find? (fun c => c.name == s)

/-- A single Kanban task (`src/board/types.ts`, `Task`).  `description`
is an optional property. -/
structure Task where
  id : String
  title : String
  description : Option String
  column : ColumnType
  priority : Priority
  createdAt : String
  updatedAt : String
deriving DecidableEq, Repr

/-- Input for creating a task (`CreateTaskInput`): `title` required,
the rest optional properties. -/
structure CreateTaskInput where
  title : String
  description : Option String := none
  column : Option ColumnType := none
  priority : Option Priority := none
deriving DecidableEq, Repr

/-- Input for updating a task through the board API (`UpdateTaskInput`):
only `title`, `description`, `priority` are present in the type. -/
structure UpdateTaskInput where
  title : Option String := none
  description : Option String := none
  priority : Option Priority := none
deriving DecidableEq, Repr

/-- A `Partial<Task>` object as accepted by the storage-level
`updateTask` (`src/board/storage.ts`): every property optional. -/
structure PartialTask where
  id : Option String := none
  title : Option String := none
  description : Option String := none
  column : Option ColumnType := none
  priority : Option Priority := none
  createdAt : Option String := none
  updatedAt : Option String := none
deriving DecidableEq, Repr

/-- The spread `{...tasks[index], ...updates, updatedAt: now}` of
`storage.updateTask`: each property supplied by `updates` overrides the
existing one, and `updatedAt` is unconditionally set to `now` (it is
written after the spread). -/
def mergeTask (t : Task) (u : PartialTask) (now : String) : Task :=
  { id := u.id.getD t.id
    title := u.title.getD t.title
    description := match u.description with
      | some d => some d
      | none => t.description
    column := u.column.getD t.column
    priority := u.priority.getD t.priority
    createdAt := u.createdAt.getD t.createdAt
    updatedAt := now }

/-- `storage.findTask`: `tasks.find(t => t.id === taskId) || null`. -/
def findTask (tasks : List Task) (taskId : String) : Option Task :=
  tasks.find? (fun t => t.id == taskId)

/-- `storage.updateTask`: locate the first task whose `id` matches
(`findIndex`), return `null` leaving the collection untouched when there
is none, otherwise replace that entry by the merged task, save, and
return the merged task.  The collection is threaded explicitly: the
second component is the saved collection. -/
def updateTask : List Task → String → PartialTask → String → Option Task × List Task
  | [], _, _, _ => (none, [])
  | t :: ts, taskId, u, now =>
    if t.id == taskId then
      let merged := mergeTask t u now
      (some merged, merged :: ts)
    else
      let rest := updateTask ts taskId u now
      (rest.1, t :: rest.2)

/-- `storage.deleteTask`: locate the first task whose `id` matches,
return `false` leaving the collection untouched when there is none,
otherwise `splice` exactly that entry out, save, and return `true`. -/
def deleteTask : List Task → String → Bool × List Task
  | [], _ => (false, [])
  | t :: ts, taskId =>
    if t.id == taskId then
      (true, ts)
    else
      let rest := deleteTask ts taskId
      (rest.1, t :: rest.2)

/-- `KanbanBoard.createTask`: builds the task (defaulting `column` to
`backlog` and `priority` to `medium` via `||` when the property is
omitted, stamping `createdAt = updatedAt = now`), pushes it at the end
of the loaded collection and saves.  There is no validation of `title`
in this method.  `newId` is the value produced by `uuidv4()`. -/
def createTask (tasks : List Task) (input : CreateTaskInput) (newId now : String) :
    Task × List Task :=
  let task : Task :=
    { id := newId
      title := input.title
      description := input.description
      column := input.column.getD .backlog
      priority := input.priority.getD .medium
      createdAt := now
      updatedAt := now }
  (task, tasks ++ [task])

/-- The `UpdateTaskInput` viewed as the `Partial<Task>` that
`KanbanBoard.updateTask` forwards to the storage layer. -/
def UpdateTaskInput.toPartial (u : UpdateTaskInput) : PartialTask :=
  { title := u.title, description := u.description, priority := u.priority }

/-- `KanbanBoard.updateTask`: delegates to `storage.updateTask` with the
restricted field set. -/
def boardUpdateTask (tasks : List Task) (taskId : String) (u : UpdateTaskInput)
    (now : String) : Option Task × List Task :=
  updateTask tasks taskId u.toPartial now

/-- `KanbanBoard.moveTask`: rejects a `toColumn` string that is not a
member of `COLUMNS`, throwing an error naming the invalid value and
listing the valid ones before any file access; otherwise delegates to
`storage.updateTask` with `{ column: toColumn }`.  The second component
is the resulting collection (unchanged on the error path). -/
def moveTask (tasks : List Task) (taskId toColumn now : String) :
    Except String (Option Task) × List Task :=
  match parseColumn toColumn with
  | none =>
    (.error ("Invalid column: " ++ toColumn ++ ". Must be one of: "
      ++ String.intercalate ", " columnNames), tasks)
  | some c =>
    let r := updateTask tasks taskId { column := some c } now
    (.ok r.1, r.2)

/-- Board statistics record: the four fixed keys of the
`Record<ColumnType, number>` initialized to zero in `getStats`. -/
structure Stats where
  backlog : Nat
  todo : Nat
  review : Nat
  done : Nat
deriving DecidableEq, Repr

/-- One iteration of the `for` loop of `getStats`: increment the counter
of the task's column. -/
def statsStep (s : Stats) (t : Task) : Stats :=
  match t.column with
  | .backlog => { s with backlog := s.backlog + 1 }
  | .todo => { s with todo := s.todo + 1 }
  | .review => { s with review := s.review + 1 }
  | .done => { s with done := s.done + 1 }

/-- `KanbanBoard.getStats`: fold the counting loop over the loaded
collection starting from all-zero counters. -/
def getStats (tasks : List Task) : Stats :=
  tasks.foldl statsStep { backlog := 0, todo := 0, review := 0, done := 0 }

/-! ## Task store file handling (`src/board/storage.ts`, `loadTasks`) -/

/-- A JSON value, for the content of the tasks file. -/
inductive Json where
  | null
  | bool (b : Bool)
  | num (n : Int)
  | str (s : String)
  | arr (xs : List Json)
  | obj (fields : List (String × Json))

/-- State of the tasks file on disk: missing, present but not valid
JSON, or present with parsed content `j`. -/
inductive TasksFile where
  | absent
  | invalid
  | parsed (j : Json)

/-- `storage.loadTasks`: when the file does not exist, save an empty
array and return the empty collection; when the content is not valid
JSON (a `SyntaxError` from `JSON.parse`) throw
`Invalid JSON in tasks file`; when the parsed value is not an array
throw `Tasks file must contain an array`; otherwise return the parsed
array as-is — no element of the array is inspected.  The second
component is the resulting file state. -/
def loadTasks (file : TasksFile) : Except String (List Json) × TasksFile :=
  match file with
  | .absent => (.ok [], .parsed (.arr []))
  | .invalid => (.error "Invalid JSON in tasks file", .invalid)
  | .parsed (.arr xs) => (.ok xs, .parsed (.arr xs))
  | .parsed j => (.error "Tasks file must contain an array", .parsed j)

/-- Look up a key in a JSON object field list (first occurrence). -/
def Json.lookup (fields : List (String × Json)) (key : String) : Option Json :=
  (fields.find? (fun f => f.1 == key)).map Prod.snd

/-- Modelled from the spec: a "task-shaped record" — a mapping with the
fields of the data model (string `id`, `title`, `createdAt`,
`updatedAt`, a `column` among the four enumerated values, a `priority`
among `low | medium | high`, and an optional string `description`).
Used only to state what the spec says `loadTasks` checks; the source
performs no such check. -/
def isTaskShaped (j : Json) : Bool :=
  match j with
  | .obj fields =>
    (match Json.lookup fields "id" with | some (.str _) => true | _ => false)
    && (match Json.lookup fields "title" with | some (.str _) => true | _ => false)
    && (match Json.lookup fields "column" with
        | some (.str s) => (parseColumn s).isSome
        | _ => false)
    && (match Json.lookup fields "priority" with
        | some (.str s) => s == "low" || s == "medium" || s == "high"
        | _ => false)
    && (match Json.lookup fields "createdAt" with | some (.str _) => true | _ => false)
    && (match Json.lookup fields "updatedAt" with | some (.str _) => true | _ => false)
    && (match Json.lookup fields "description" with
        | some (.str _) => true
        | none => true
        | _ => false)
  | _ => false

/-- Modelled from the spec: the file content "parses as a collection of
task-shaped records" — it is present, valid JSON, a top-level array, and
every element is task-shaped. -/
def specParsesAsTaskCollection : TasksFile → Bool
  | .parsed (.arr xs) => xs.all isTaskShaped
  | _ => false

/-! ## Project configuration store (`src/config/config.ts`) -/

/-- The merged board configuration.  In the source `BoardConfig.createdAt`
is declared `string`, but the default object spread in `loadConfig` has
no `createdAt` member, so a stored document lacking the field yields an
`undefined` runtime value; we model the field as optional. -/
structure BoardConfig where
  boardName : String
  tasksFile : String
  createdAt : Option String
deriving DecidableEq, Repr

/-- A parsed config document: each recognized property possibly absent. -/
structure ConfigDoc where
  boardName : Option String := none
  tasksFile : Option String := none
  createdAt : Option String := none
deriving DecidableEq, Repr

/-- `DEFAULT_CONFIG.boardName`. -/
def defaultBoardName : String := "Kanban Board"

/-- `DEFAULT_CONFIG.tasksFile`. -/
def defaultTasksFile : String := "tasks.json"

/-- State of the per-project config file. -/
inductive ConfigFile where
  | absent
  | invalid
  | parsed (d : ConfigDoc)
deriving DecidableEq, Repr

/-- The spread `{...DEFAULT_CONFIG, ...parsed}` of `loadConfig`: each of
`boardName` and `tasksFile` falls back to its default when the stored
document lacks it; `createdAt` has no default and is taken from the
document alone. -/
def mergeConfig (d : ConfigDoc) : BoardConfig :=
  { boardName := d.boardName.getD defaultBoardName
    tasksFile := d.tasksFile.getD defaultTasksFile
    createdAt := d.createdAt }

/-- The document written by `saveConfig` for a given config value. -/
def configToDoc (c : BoardConfig) : ConfigDoc :=
  { boardName := some c.boardName
    tasksFile := some c.tasksFile
    createdAt := c.createdAt }

/-- `config.loadConfig`: when the file does not exist, build the default
config with a fresh `createdAt = now`, save it, and return it; when the
file exists but YAML parsing throws, rethrow
`Failed to parse config file`; otherwise merge the parsed document over
the defaults (no save).  The second component is the resulting file
state. -/
def loadConfig (file : ConfigFile) (now : String) :
    Except String BoardConfig × ConfigFile :=
  match file with
  | .absent =>
    let config : BoardConfig :=
      { boardName := defaultBoardName
        tasksFile := defaultTasksFile
        createdAt := some now }
    (.ok config, .parsed (configToDoc config))
  | .invalid => (.error "Failed to parse config file", .invalid)
  | .parsed d => (.ok (mergeConfig d), .parsed d)

/-! ## Project registry (`src/config/global-config.ts`) -/

/-- The global config document: last used project path and recent
project list, both optional (`GlobalConfig` interface). -/
structure GlobalConfig where
  lastProjectPath : Option String := none
  recentProjects : Option (List String) := none
deriving DecidableEq, Repr

/-- State of `~/.viban-global.yml`. -/
inductive RegistryFile where
  | absent
  | invalid
  | parsed (g : GlobalConfig)
deriving DecidableEq, Repr

/-- `loadGlobalConfig`: `{}` when the file does not exist; on any read
or parse error the `catch` clause swallows the failure and returns
`{}`; otherwise the parsed mapping (`yaml.parse(content) || {}`). -/
def loadGlobalConfig : RegistryFile → GlobalConfig
  | .absent => {}
  | .invalid => {}
  | .parsed g => g

/-- `saveGlobalConfig`: writes the mapping to the registry file. -/
def saveGlobalConfig (g : GlobalConfig) : RegistryFile :=
  .parsed g

/-- `setLastProjectPath`: load, set `lastProjectPath`, remove the first
prior occurrence of the path from the recent list (`indexOf`/`splice`),
`unshift` it at the front, keep the first 10 entries (`slice(0, 10)`),
save. -/
def setLastProjectPath (file : RegistryFile) (projectPath : String) : RegistryFile :=
  let config := loadGlobalConfig file
  let recentProjects := config.recentProjects.getD []
  let removed := recentProjects.erase projectPath
  let updated := (projectPath :: removed).take 10
  saveGlobalConfig { lastProjectPath := some projectPath, recentProjects := some updated }

/-- `getLastProjectPath`: `loadGlobalConfig().lastProjectPath`. -/
def getLastProjectPath (file : RegistryFile) : Option String :=
  (loadGlobalConfig file).lastProjectPath

/-- `getRecentProjects`: `loadGlobalConfig().recentProjects || []`. -/
def getRecentProjects (file : RegistryFile) : List String :=
  (loadGlobalConfig file).recentProjects.getD []

/-! ## Helper lemmas -/

theorem findTask_eq_none_of_not_mem (tasks : List Task) (taskId : String)
    (h : ∀ t ∈ tasks, t.id ≠ taskId) : findTask tasks taskId = none := by
  simp only [findTask, List.find?_eq_none, beq_iff_eq]
  exact h

theorem updateTask_of_not_mem (tasks : List Task) (taskId : String)
    (u : PartialTask) (now : String) (h : ∀ t ∈ tasks, t.id ≠ taskId) :
    updateTask tasks taskId u now = (none, tasks) := by
  induction tasks with
  | nil => rfl
  | cons t ts ih =>
    have ht : (t.id == taskId) = false := by
      simpa using h t (List.mem_cons_self t ts)
    simp [updateTask, ht, ih fun t' h' => h t' (List.mem_cons_of_mem t h')]

theorem updateTask_first_match (l1 l2 : List Task) (t : Task) (taskId : String)
    (u : PartialTask) (now : String)
    (h1 : ∀ t' ∈ l1, t'.id ≠ taskId) (ht : t.id = taskId) :
    updateTask (l1 ++ t :: l2) taskId u now
      = (some (mergeTask t u now), l1 ++ mergeTask t u now :: l2) := by
  induction l1 with
  | nil => simp [updateTask, ht]
  | cons a l1 ih =>
    have ha : (a.id == taskId) = false := by
      simpa using h1 a (List.mem_cons_self a l1)
    simp [updateTask, ha, ih fun t' h' => h1 t' (List.mem_cons_of_mem a h')]

theorem deleteTask_of_not_mem (tasks : List Task) (taskId : String)
    (h : ∀ t ∈ tasks, t.id ≠ taskId) :
    deleteTask tasks taskId = (false, tasks) := by
  induction tasks with
  | nil => rfl
  | cons t ts ih =>
    have ht : (t.id == taskId) = false := by
      simpa using h t (List.mem_cons_self t ts)
    simp [deleteTask, ht, ih fun t' h' => h t' (List.mem_cons_of_mem t h')]

theorem deleteTask_first_match (l1 l2 : List Task) (t : Task) (taskId : String)
    (h1 : ∀ t' ∈ l1, t'.id ≠ taskId) (ht : t.id = taskId) :
    deleteTask (l1 ++ t :: l2) taskId = (true, l1 ++ l2) := by
  induction l1 with
  | nil => simp [deleteTask, ht]
  | cons a l1 ih =>
    have ha : (a.id == taskId) = false := by
      simpa using h1 a (List.mem_cons_self a l1)
    simp [deleteTask, ha, ih fun t' h' => h1 t' (List.mem_cons_of_mem a h')]

theorem mem_deleteTask_snd (tasks : List Task) (taskId : String) (t' : Task)
    (h : t' ∈ (deleteTask tasks taskId).2) : t' ∈ tasks := by
  induction tasks with
  | nil => simp [deleteTask] at h
  | cons t ts ih =>
    by_cases hid : (t.id == taskId) = true
    · simp only [deleteTask, hid, if_pos] at h
      exact List.mem_cons_of_mem t h
    · simp only [deleteTask, hid, if_neg, Bool.not_eq_true] at h
      rcases List.mem_cons.mp h with h1 | h2
      · exact h1 ▸ List.mem_cons_self t ts
      · exact List.mem_cons_of_mem t (ih h2)

theorem findTask_deleteTask_of_nodup (tasks : List Task) (taskId : String)
    (hnd : (tasks.map Task.id).Nodup) (hmem : taskId ∈ tasks.map Task.id) :
    findTask (deleteTask tasks taskId).2 taskId = none := by
  induction tasks with
  | nil => simp at hmem
  | cons t ts ih =>
    rw [List.map_cons, List.nodup_cons] at hnd
    by_cases hid : t.id = taskId
    · have hdel : deleteTask (t :: ts) taskId = (true, ts) := by
        simp [deleteTask, hid]
      rw [hdel]
      refine findTask_eq_none_of_not_mem ts taskId fun t' h' heq => ?_
      exact hnd.1 (hid ▸ heq ▸ List.mem_map_of_mem Task.id h')
    · have hbeq : (t.id == taskId) = false := by simpa using hid
      have hdel : (deleteTask (t :: ts) taskId).2 = t :: (deleteTask ts taskId).2 := by
        simp [deleteTask, hbeq]
      rw [hdel]
      have hmem' : taskId ∈ ts.map Task.id := by
        rw [List.map_cons] at hmem
        rcases List.mem_cons.mp hmem with h1 | h2
        · exact absurd h1.symm hid
        · exact h2
      have hrest := ih hnd.2 hmem'
      simp only [findTask, List.find?_cons, hbeq]
      exact hrest

theorem getStats_foldl (tasks : List Task) (acc : Stats) :
    tasks.foldl statsStep acc =
      { backlog := acc.backlog
          + (tasks.filter (fun t => decide (t.column = ColumnType.backlog))).length
        todo := acc.todo
          + (tasks.filter (fun t => decide (t.column = ColumnType.todo))).length
        review := acc.review
          + (tasks.filter (fun t => decide (t.column = ColumnType.review))).length
        done := acc.done
          + (tasks.filter (fun t => decide (t.column = ColumnType.done))).length } := by
  induction tasks generalizing acc with
  | nil => simp
  | cons t ts ih =>
    rw [List.foldl_cons, ih]
    cases hc : t.column <;>
      simp [statsStep, hc, List.filter_cons, Stats.mk.injEq] <;> omega

theorem length_filter_columns (tasks : List Task) :
    (tasks.filter (fun t => decide (t.column = ColumnType.backlog))).length
    + (tasks.filter (fun t => decide (t.column = ColumnType.todo))).length
    + (tasks.filter (fun t => decide (t.column = ColumnType.review))).length
    + (tasks.filter (fun t => decide (t.column = ColumnType.done))).length
    = tasks.length := by
  induction tasks with
  | nil => rfl
  | cons t ts ih =>
    cases hc : t.column <;> simp [List.filter_cons, hc] <;> omega

theorem intercalate_columnNames :
    String.intercalate ", " columnNames = "backlog, todo, review, done" := by
  decide

theorem invalid_column_message (toColumn : String) :
    "Invalid column: " ++ toColumn ++ ". Must be one of: "
      ++ String.intercalate ", " columnNames
    = "Invalid column: " ++ toColumn
      ++ ". Must be one of: backlog, todo, review, done" := by
  rw [intercalate_columnNames, String.append_assoc]
  congr 1

/-! ## Claim theorems -/

/-- C1 counterexample: `createTask` called with an empty title on an empty
collection creates a task with empty title and persists it — the stored
collection changes from `[]` to a one-element list, so the operation neither
fails with a `ValidationError` nor leaves the collection unchanged. -/
theorem C1_counterexample :
    (createTask [] { title := "" } "id-1" "t0").2 =
      [{ id := "id-1", title := "", description := none, column := .backlog,
         priority := .medium, createdAt := "t0", updatedAt := "t0" }] ∧
    (createTask [] { title := "" } "id-1" "t0").2 ≠ [] := by
  refine ⟨rfl, ?_⟩
  intro h
  simp [createTask] at h

/-- C1 (amended): `KanbanBoard.createTask` performs no title validation:
for every input, including one whose title is the empty string, it builds a
task carrying the input's title verbatim and appends it to the persisted
collection. -/
theorem C1_createTask_no_validation (tasks : List Task) (input : CreateTaskInput)
    (newId now : String) :
    (createTask tasks input newId now).1.title = input.title ∧
    (createTask tasks input newId now).2
      = tasks ++ [(createTask tasks input newId now).1] :=
  ⟨rfl, rfl⟩

/-- C2: for every `CreateTaskInput` with non-empty title, `createTask`
returns a task whose id is the freshly generated one (distinct from every id
already in the collection when the generator is fresh), whose column is the
input's or `backlog` when omitted, whose priority is the input's or `medium`
when omitted, with `createdAt = updatedAt`, and the task is appended at the
end of the persisted collection. -/
theorem C2_createTask_valid (tasks : List Task) (input : CreateTaskInput)
    (newId now : String) (hfresh : newId ∉ tasks.map Task.id)
    (_htitle : input.title ≠ "") :
    (createTask tasks input newId now).1.id = newId ∧
    (createTask tasks input newId now).1.id ∉ tasks.map Task.id ∧
    (createTask tasks input newId now).1.column = input.column.getD .backlog ∧
    (createTask tasks input newId now).1.priority = input.priority.getD .medium ∧
    (createTask tasks input newId now).1.createdAt
      = (createTask tasks input newId now).1.updatedAt ∧
    (createTask tasks input newId now).2
      = tasks ++ [(createTask tasks input newId now).1] :=
  ⟨rfl, hfresh, rfl, rfl, rfl, rfl⟩

/-- Witness for C2 at a concrete input. -/
theorem C2_createTask_valid_witness :
    (createTask [] { title := "Implement login" } "id-1" "t0").1.id = "id-1" :=
  (C2_createTask_valid [] { title := "Implement login" } "id-1" "t0"
    (by simp) (by decide)).1

/-- C3: `moveTask` with a `toColumn` string that is not one of the four
enumerated values fails with an error message naming the invalid value and
listing the valid ones, and leaves the stored collection unchanged; with a
valid `toColumn` it behaves exactly as a storage update of only the `column`
field, and in particular returns absent when the id is unknown. -/
theorem C3_moveTask_validation (tasks : List Task) (taskId toColumn now : String) :
    (parseColumn toColumn = none →
      moveTask tasks taskId toColumn now =
        (.error ("Invalid column: " ++ toColumn
          ++ ". Must be one of: backlog, todo, review, done"), tasks)) ∧
    (∀ c, parseColumn toColumn = some c →
      moveTask tasks taskId toColumn now =
        (.ok (updateTask tasks taskId { column := some c } now).1,
         (updateTask tasks taskId { column := some c } now).2)) ∧
    (∀ c, parseColumn toColumn = some c → (∀ t ∈ tasks, t.id ≠ taskId) →
      moveTask tasks taskId toColumn now = (.ok none, tasks)) := by
  refine ⟨fun h => ?_, fun c hc => ?_, fun c hc hid => ?_⟩
  · rw [← invalid_column_message toColumn]
    simp [moveTask, h]
  · simp [moveTask, hc]
  · simp [moveTask, hc, updateTask_of_not_mem tasks taskId _ now hid]

/-- C4: `KanbanBoard.updateTask` on an unknown id returns absent and leaves
the collection unchanged; on the first task matching the id it merges exactly
the supplied `title`, `description` and `priority` over the existing task and
refreshes `updatedAt`, while `id`, `column`, `createdAt`, every unsupplied
field, and all other tasks are unchanged. -/
theorem C4_updateTask_frame (tasks l1 l2 : List Task) (t : Task) (taskId : String)
    (u : UpdateTaskInput) (now : String) :
    ((∀ t' ∈ tasks, t'.id ≠ taskId) →
      boardUpdateTask tasks taskId u now = (none, tasks)) ∧
    ((∀ t' ∈ l1, t'.id ≠ taskId) → t.id = taskId →
      ∃ t', boardUpdateTask (l1 ++ t :: l2) taskId u now = (some t', l1 ++ t' :: l2)
        ∧ t'.id = t.id
        ∧ t'.column = t.column
        ∧ t'.createdAt = t.createdAt
        ∧ t'.updatedAt = now
        ∧ t'.title = u.title.getD t.title
        ∧ t'.priority = u.priority.getD t.priority
        ∧ t'.description = (match u.description with
            | some d => some d
            | none => t.description)) := by
  constructor
  · intro h
    exact updateTask_of_not_mem tasks taskId u.toPartial now h
  · intro h1 ht
    refine ⟨mergeTask t u.toPartial now,
      updateTask_first_match l1 l2 t taskId u.toPartial now h1 ht,
      rfl, rfl, rfl, rfl, rfl, rfl, rfl⟩

/-- C5: `getStats` carries all four column keys, each equal to the number of
tasks of the collection in that column, and the four counts sum to the total
number of tasks. -/
theorem C5_getStats_counts (tasks : List Task) :
    (getStats tasks).backlog
      = (tasks.filter (fun t => decide (t.column = ColumnType.backlog))).length ∧
    (getStats tasks).todo
      = (tasks.filter (fun t => decide (t.column = ColumnType.todo))).length ∧
    (getStats tasks).review
      = (tasks.filter (fun t => decide (t.column = ColumnType.review))).length ∧
    (getStats tasks).done
      = (tasks.filter (fun t => decide (t.column = ColumnType.done))).length ∧
    (getStats tasks).backlog + (getStats tasks).todo + (getStats tasks).review
      + (getStats tasks).done = tasks.length := by
  have h : getStats tasks =
      { backlog := (tasks.filter (fun t => decide (t.column = ColumnType.backlog))).length
        todo := (tasks.filter (fun t => decide (t.column = ColumnType.todo))).length
        review := (tasks.filter (fun t => decide (t.column = ColumnType.review))).length
        done := (tasks.filter (fun t => decide (t.column = ColumnType.done))).length } := by
    rw [getStats, getStats_foldl]
    simp
  rw [h]
  exact ⟨rfl, rfl, rfl, rfl, length_filter_columns tasks⟩

/-- C6: `deleteTask` on an unknown id returns `false` and leaves the
collection unchanged; on a known id it removes exactly the first matching
entry (the length decreases by one and the other tasks keep their order),
returns `true`, and — when ids are unique, the collection invariant — a
subsequent `findTask` for that id returns absent. -/
theorem C6_deleteTask_spec (tasks l1 l2 : List Task) (t : Task) (taskId : String) :
    ((∀ t' ∈ tasks, t'.id ≠ taskId) → deleteTask tasks taskId = (false, tasks)) ∧
    ((∀ t' ∈ l1, t'.id ≠ taskId) → t.id = taskId →
      deleteTask (l1 ++ t :: l2) taskId = (true, l1 ++ l2)
        ∧ (l1 ++ l2).length + 1 = (l1 ++ t :: l2).length) ∧
    ((tasks.map Task.id).Nodup → taskId ∈ tasks.map Task.id →
      findTask (deleteTask tasks taskId).2 taskId = none) := by
  refine ⟨deleteTask_of_not_mem tasks taskId, fun h1 ht =>
    ⟨deleteTask_first_match l1 l2 t taskId h1 ht, ?_⟩,
    findTask_deleteTask_of_nodup tasks taskId⟩
  simp only [List.length_append, List.length_cons]
  omega

/-- C7 counterexample: the file content `[1]` is not a collection of
task-shaped records, yet `loadTasks` does not fail — it returns the parsed
array unchecked, so "fails exactly when the content does not parse as a
collection of task-shaped records" is false. -/
theorem C7_counterexample :
    specParsesAsTaskCollection (.parsed (.arr [.num 1])) = false ∧
    (loadTasks (.parsed (.arr [.num 1]))).1 = .ok [.num 1] :=
  ⟨rfl, rfl⟩

/-- C7 (amended): when the tasks file is absent, `loadTasks` creates it with
an empty array and returns the empty collection; when it is present, the load
fails exactly when the content is not valid JSON or its top level is not an
array — the shape of the elements is never checked — and otherwise returns
the parsed array verbatim, leaving the file untouched. -/
theorem C7_loadTasks_amended (file : TasksFile) :
    (loadTasks .absent = (.ok [], .parsed (.arr []))) ∧
    (∀ xs, loadTasks (.parsed (.arr xs)) = (.ok xs, .parsed (.arr xs))) ∧
    (loadTasks .invalid = (.error "Invalid JSON in tasks file", .invalid)) ∧
    ((∃ v, (loadTasks file).1 = .ok v)
      ↔ file = .absent ∨ ∃ xs, file = .parsed (.arr xs)) ∧
    ((loadTasks file).2 = file ∨ file = .absent) := by
  refine ⟨rfl, fun xs => rfl, rfl, ?_, ?_⟩
  · cases file with
    | absent => simp [loadTasks]
    | invalid => simp [loadTasks]
    | parsed j => cases j <;> simp [loadTasks]
  · cases file with
    | absent => exact Or.inr rfl
    | invalid => exact Or.inl rfl
    | parsed j => cases j <;> exact Or.inl rfl

/-- C8: on a fresh project directory `loadConfig` synthesizes and persists the
defaults — `boardName = "Kanban Board"`, `tasksFile = "tasks.json"`, a fresh
`createdAt` — and returns them; on an existing parsed document it merges
field-by-field, each recognized field falling back to its default when
absent; a second load after the first returns identical values (the original
`createdAt`, not a new one) and does not rewrite the file. -/
theorem C8_loadConfig_defaults_merge (d : ConfigDoc) (now now2 : String) :
    (loadConfig .absent now =
      (.ok { boardName := "Kanban Board", tasksFile := "tasks.json",
             createdAt := some now },
       .parsed { boardName := some "Kanban Board", tasksFile := some "tasks.json",
                 createdAt := some now })) ∧
    ((loadConfig (.parsed d) now).1
      = .ok { boardName := d.boardName.getD "Kanban Board",
              tasksFile := d.tasksFile.getD "tasks.json",
              createdAt := d.createdAt }) ∧
    ((loadConfig (.parsed d) now).2 = .parsed d) ∧
    (loadConfig (loadConfig .absent now).2 now2
      = ((loadConfig .absent now).1, (loadConfig .absent now).2)) :=
  ⟨rfl, rfl, rfl, rfl⟩

theorem getRecent_setLast (file : RegistryFile) (p : String) :
    getRecentProjects (setLastProjectPath file p)
      = (p :: (getRecentProjects file).erase p).take 10 := rfl

/-- C9: every `setLastProjectPath` call puts the given path at the front of
the recent list, removes the prior occurrence of that path (so, starting from
a duplicate-free list, the list stays duplicate-free and contains the path
exactly once), truncates to at most 10 entries, and introduces no path that
was not already recent; in the concrete scenario /a, /b, /a the recent list
is exactly ["/a", "/b"]. -/
theorem C9_setLastProjectPath_recent (file : RegistryFile) (p : String)
    (hnodup : (getRecentProjects file).Nodup) :
    (getRecentProjects (setLastProjectPath file p)).head? = some p ∧
    (getRecentProjects (setLastProjectPath file p)).Nodup ∧
    (getRecentProjects (setLastProjectPath file p)).length ≤ 10 ∧
    (getRecentProjects (setLastProjectPath file p)).count p = 1 ∧
    (∀ q ∈ getRecentProjects (setLastProjectPath file p),
        q = p ∨ q ∈ getRecentProjects file) ∧
    getRecentProjects
        (setLastProjectPath (setLastProjectPath (setLastProjectPath .absent "/a")
          "/b") "/a")
      = ["/a", "/b"] := by
  rw [getRecent_setLast]
  have hnodup' : (p :: (getRecentProjects file).erase p).Nodup := by
    rw [List.nodup_cons]
    exact ⟨fun hmem => (hnodup.mem_erase_iff.mp hmem).1 rfl, hnodup.erase p⟩
  have hnodup'' : ((p :: (getRecentProjects file).erase p).take 10).Nodup :=
    List.Nodup.sublist (List.take_sublist 10 _) hnodup'
  have hmem : p ∈ (p :: (getRecentProjects file).erase p).take 10 :=
    show p ∈ p :: ((getRecentProjects file).erase p).take 9 from
      List.mem_cons_self p _
  refine ⟨rfl, hnodup'', List.length_take_le 10 _, ?_, ?_, ?_⟩
  · exact List.count_eq_one_of_mem hnodup'' hmem
  · intro q hq
    rcases List.mem_cons.mp (List.mem_of_mem_take hq) with h | h
    · exact Or.inl h
    · exact Or.inr (List.mem_of_mem_erase h)
  · rfl

/-- Witness for C9 at a concrete input. -/
theorem C9_witness :
    (getRecentProjects (setLastProjectPath .absent "/a")).count "/a" = 1 :=
  (C9_setLastProjectPath_recent .absent "/a" List.nodup_nil).2.2.2.1

/-- C10 counterexample: with a registry file present but unparsable, the read
operations return absent/empty instead of surfacing a failure — `getLastProjectPath`
yields `none` and `getRecentProjects` yields `[]`. -/
theorem C10_counterexample :
    getLastProjectPath .invalid = none ∧ getRecentProjects .invalid = [] :=
  ⟨rfl, rfl⟩

/-- C10 (amended): `loadGlobalConfig` swallows a parse failure of the registry
file, returning the empty config, so `getLastProjectPath` returns absent and
`getRecentProjects` returns the empty list rather than failing. -/
theorem C10_registry_swallows_parse_failure :
    loadGlobalConfig .invalid = ({} : GlobalConfig) ∧
    getLastProjectPath .invalid = none ∧
    getRecentProjects .invalid = [] :=
  ⟨rfl, rfl, rfl⟩

end Viban
